import Mathlib

/-!
Shallow embedding of the AmazonPriceSpy resolution server
(`server/routes.ts`, `server/storage.ts`, `shared/schema.ts`) in Lean 4,
together with theorems settling the frozen claims about it.

JavaScript machine numbers are modelled by `Int` (integer-valued fields)
and `Rat` (fractional fields); `null`/`undefined` fields are modelled by
`Option`, and JavaScript truthiness (where it matters: `0`, `""`, `null`,
`undefined` are falsy) is modelled explicitly at each use site.
-/

namespace PriceSpy

/-- Model of the JavaScript string-or-default idiom `v || d` applied to a
possibly-null string field: `null`/`undefined` and the empty string are
falsy, so they yield the default. -/
def jsStrOr (v : Option String) (d : String) : String :=
  match v with
  | some s => if s = "" then d else s
  | none => d

/-- Model of `a || b` on two possibly-absent strings, returning the first
truthy operand and otherwise the second operand as it stands. -/
def jsOrOpt (a b : Option String) : Option String :=
  match a with
  | some s => if s = "" then b else some s
  | none => b

/-- Whether a possibly-absent string is truthy in JavaScript. -/
def strTruthy (v : Option String) : Bool :=
  match v with
  | some s => ¬ (s = "")
  | none => false

/-- Model of `Math.round`: round half up (towards positive infinity). -/
def jsRound (q : Rat) : Int := ⌊q + 1/2⌋

/-- Numeric value of a list of decimal digit characters. -/
def digitsToNat (ds : List Char) : Nat :=
  ds.foldl (fun acc c => 10 * acc + (c.toNat - ('0').toNat)) 0

/-- Exponent part of a JavaScript float literal after the `e`: an optional
sign and digits; a malformed exponent contributes nothing, as in
`parseFloat`. -/
def parseExpPart (t : List Char) : Int :=
  let sgn : Int := match t with
    | '-' :: _ => -1
    | _ => 1
  let t1 : List Char := match t with
    | '-' :: r => r
    | '+' :: r => r
    | _ => t
  let ds := t1.takeWhile Char.isDigit
  if ds.isEmpty then 0 else sgn * (digitsToNat ds : Int)

/-- Model of JavaScript `parseFloat` on a character list: skip leading
whitespace, optional sign, decimal digits with optional fraction and
exponent, ignoring trailing junk; `none` models NaN (no parsable prefix).
Non-decimal forms (`Infinity`) are outside the data this program feeds it. -/
def jsParseFloat (cs0 : List Char) : Option Rat :=
  let cs1 := cs0.dropWhile (fun c => c = ' ' ∨ c = '\t' ∨ c = '\n' ∨ c = '\r')
  let sgn : Rat := match cs1 with
    | '-' :: _ => -1
    | _ => 1
  let cs : List Char := match cs1 with
    | '-' :: r => r
    | '+' :: r => r
    | _ => cs1
  let intPart := cs.takeWhile Char.isDigit
  let rest1 := cs.dropWhile Char.isDigit
  let fracPart : List Char := match rest1 with
    | '.' :: t => t.takeWhile Char.isDigit
    | _ => []
  let rest2 : List Char := match rest1 with
    | '.' :: t => t.dropWhile Char.isDigit
    | _ => rest1
  if intPart.isEmpty ∧ fracPart.isEmpty then none
  else
    let mant : Rat :=
      (digitsToNat intPart : Rat) + (digitsToNat fracPart : Rat) / ((10 : Rat) ^ fracPart.length)
    let e : Int := match rest2 with
      | 'e' :: t => parseExpPart t
      | 'E' :: t => parseExpPart t
      | _ => 0
    some (sgn * mant * (10 : Rat) ^ e)

/-- Model of `parseFloat(price.replace(/[$,]/g, ''))` from the prioritizer:
strip every `$` and `,`, then parse; `none` models NaN. -/
def parsePrice (s : String) : Option Rat :=
  jsParseFloat (s.toList.filter (fun c => ¬ (c = '$' ∨ c = ',')))

/-- Parsed price with NaN defaulted to `0`; used only to state and prove
order properties on lists whose prices all parse, where it coincides with
`parsePrice`. -/
def parsePriceD (s : String) : Rat := (parsePrice s).getD 0

/-- Model of `(cents / 100).toFixed(2)` for integer cents. -/
def centsDisplay (c : Int) : String :=
  let pad := fun (n : Nat) => if n < 10 then "0" ++ toString n else toString n
  (if c < 0 then "-" else "") ++ toString (c.natAbs / 100) ++ "." ++ pad (c.natAbs % 100)

/-- Model of `x.toFixed(1)` for the nonnegative distances this program
renders: nearest tenth, half up. -/
def ratToFixed1 (q : Rat) : String :=
  let n : Nat := (⌊q * 10 + 1/2⌋).toNat
  toString (n / 10) ++ "." ++ toString (n % 10)

/-! ## Offers

`PublicOffer` is the externally visible offer shape of
`resolveResponseSchema` in `shared/schema.ts`; it is also the shape the
prioritizer sorts. -/

structure PublicOffer where
  id : String
  storeName : String
  storeChain : String
  address : String
  distance : String
  distanceMiles : Rat
  availabilityType : String
  eta : String
  etaMinutes : Int
  price : String
  currency : String
  lastSeen : String
  deepLink : Option String
  inStock : Bool
  stockLevel : Option Int
deriving DecidableEq

/-- The comparator of `prioritizeOffers` (routes.ts 80–96) as a JavaScript
number: negative, zero or positive, with `none` modelling a NaN result
(price subtraction where a price fails to parse). The first branch fires
only when the availability types differ and one of them is `pickup`,
exactly as in the source. -/
def offerCmp (a b : PublicOffer) : Option Rat :=
  if a.availabilityType ≠ b.availabilityType ∧ a.availabilityType = "pickup" then some (-1)
  else if a.availabilityType ≠ b.availabilityType ∧ b.availabilityType = "pickup" then some 1
  else if a.etaMinutes ≠ b.etaMinutes then some ((a.etaMinutes : Rat) - (b.etaMinutes : Rat))
  else
    match parsePrice a.price, parsePrice b.price with
    | some pa, some pb => some (pa - pb)
    | _, _ => none

/-- The comparator as the boolean `le` a stable sort consults: `a` may
stay before `b` unless the comparator is strictly positive (a NaN
comparator value is treated as a tie, as `Array.prototype.sort` does). -/
def jsSortLe (a b : PublicOffer) : Bool :=
  match offerCmp a b with
  | some v => v ≤ 0
  | none => true

/-- Model of `prioritizeOffers` (routes.ts 79–97): `Array.prototype.sort`
is a stable sort (ES2019), modelled by a stable merge sort with the
comparator above. -/
def prioritizeOffers (offers : List PublicOffer) : List PublicOffer :=
  offers.mergeSort jsSortLe

/-- Rank of an availability type under the comparator: `pickup` is the
only privileged value; every other value ranks equal. -/
def availRank (t : String) : Nat := if t = "pickup" then 0 else 1

/-- Total, transitive companion comparator: the lexicographic order on
(availability rank, ETA, parsed price with NaN defaulted to 0). On lists
whose prices all parse it agrees with `jsSortLe` pointwise. -/
def totalLe (a b : PublicOffer) : Bool :=
  availRank a.availabilityType < availRank b.availabilityType ∨
    (availRank a.availabilityType = availRank b.availabilityType ∧
      (a.etaMinutes < b.etaMinutes ∨
        (a.etaMinutes = b.etaMinutes ∧ parsePriceD a.price ≤ parsePriceD b.price)))

/-! ## Guard Filter -/

/-- The guard thresholds `GUARD_CONFIG` (routes.ts 21–26). -/
def MIN_MARGIN : Int := 30

def MIN_TRUST_SCORE : Int := 80

def MAX_ETA_MINUTES : Int := 480

def MAX_DISTANCE_MILES : Rat := 50

/-- The fields `applyGuardFilters` inspects on an offer. `none` models a
`null` field (which coerces to `0` in a JavaScript numeric comparison);
for `margin` the source guards with truthiness (`offer.margin && ...`),
modelled separately in `guardPass`. -/
structure GuardView where
  margin : Option Int
  trustScore : Option Int
  etaMinutes : Option Int
  distanceMiles : Option Rat
  availabilityType : String
  inStock : Bool
  isEligible : Bool
deriving DecidableEq

/-- The body of the `applyGuardFilters` predicate (routes.ts 49–76). Each
rejection test mirrors one `if` of the source, including the truthiness
guard on `margin` (so a `margin` of `0` is never tested against the
threshold) and `null` coercing to `0` in the other comparisons. -/
def guardPass (o : GuardView) : Bool :=
  if (match o.margin with | some m => decide (¬ (m = 0)) | none => false) &&
      decide (o.margin.getD 0 < MIN_MARGIN) then
    false
  else if o.trustScore.getD 0 < MIN_TRUST_SCORE then false
  else if o.etaMinutes.getD 0 > MAX_ETA_MINUTES then false
  else if o.availabilityType = "pickup" ∧ o.distanceMiles.getD 0 > MAX_DISTANCE_MILES then false
  else if ¬ o.inStock ∨ ¬ o.isEligible then false
  else true

/-- Model of `applyGuardFilters` (routes.ts 48–77). The source takes
`any[]`; here the guard-relevant view of the element type is passed
explicitly. -/
def applyGuardFilters {α : Type} (view : α → GuardView) (offers : List α) : List α :=
  offers.filter (fun o => guardPass (view o))

/-- A candidate offer as claim C1 quantifies over it: it carries all the
guard fields, `margin` possibly absent. -/
structure CandidateOffer where
  margin : Option Int
  trustScore : Int
  etaMinutes : Int
  distanceMiles : Rat
  availabilityType : String
  inStock : Bool
  isEligible : Bool
deriving DecidableEq

def CandidateOffer.guardView (o : CandidateOffer) : GuardView :=
  { margin := o.margin
    trustScore := some o.trustScore
    etaMinutes := some o.etaMinutes
    distanceMiles := some o.distanceMiles
    availabilityType := o.availabilityType
    inStock := o.inStock
    isEligible := o.isEligible }

/-- The guard predicate exactly as the specification words it for claim
C1: margin, if present, at least the minimum margin threshold (absence
bypasses the check); trustScore at least 80; ETA at most 480; pickup
offers within 50 miles; in stock; eligible. -/
def specGuardPass (o : CandidateOffer) : Bool :=
  (match o.margin with | some m => decide (MIN_MARGIN ≤ m) | none => true) &&
    decide (MIN_TRUST_SCORE ≤ o.trustScore) &&
    decide (o.etaMinutes ≤ MAX_ETA_MINUTES) &&
    decide (o.availabilityType = "pickup" → o.distanceMiles ≤ MAX_DISTANCE_MILES) &&
    o.inStock && o.isEligible

/-- The guard predicate amended only where the code's truthiness guard
forces it: a present margin of exactly `0` also bypasses the margin
check. -/
def amendedGuardPass (o : CandidateOffer) : Bool :=
  (match o.margin with | some m => decide (m = 0 ∨ MIN_MARGIN ≤ m) | none => true) &&
    decide (MIN_TRUST_SCORE ≤ o.trustScore) &&
    decide (o.etaMinutes ≤ MAX_ETA_MINUTES) &&
    decide (o.availabilityType = "pickup" → o.distanceMiles ≤ MAX_DISTANCE_MILES) &&
    o.inStock && o.isEligible

/-! ## Resolve requests and the cache key -/

/-- A validated resolve request (`resolveRequestSchema` in
`shared/schema.ts`): `identifiers` is a record with arbitrary string keys
and string values, modelled as an association list in insertion order;
`attributes` values are irrelevant to every claim and modelled as strings. -/
structure ResolveRequest where
  identifiers : List (String × String)
  brand : Option String := none
  title : Option String := none
  variant : Option String := none
  price : Option String := none
  currency : Option String := none
  attributes : List (String × String) := []
  platform : String
  url : String
  zip : Option String := none
deriving DecidableEq

/-- Property access on a JavaScript record object: the value at the key,
`none` for `undefined`. -/
def objGet (obj : List (String × String)) (k : String) : Option String :=
  (obj.find? (fun kv => kv.1 = k)).map (fun kv => kv.2)

/-- JSON string quoting (escaping the two characters that can occur in
this program's identifier data). -/
def jsonQuote (s : String) : String :=
  "\"" ++ String.mk (s.toList.flatMap (fun c =>
    if c = '"' ∨ c = '\\' then ['\\', c] else [c])) ++ "\""

/-- One property of `JSON.stringify` output; a property whose value is
`undefined` is omitted. -/
def jsonField (name : String) (v : Option String) : Option String :=
  v.map (fun s => jsonQuote name ++ ":" ++ jsonQuote s)

/-- Model of `generateCacheKey` (routes.ts 28–37):
`JSON.stringify({ gtin: identifiers.gtin || identifiers.upc ||
identifiers.ean, asin, platform, variant, zip })`. -/
def generateCacheKey (r : ResolveRequest) : String :=
  let fields : List (Option String) :=
    [ jsonField "gtin" (jsOrOpt (objGet r.identifiers "gtin")
        (jsOrOpt (objGet r.identifiers "upc") (objGet r.identifiers "ean")))
    , jsonField "asin" (objGet r.identifiers "asin")
    , jsonField "platform" (some r.platform)
    , jsonField "variant" r.variant
    , jsonField "zip" r.zip ]
  "\x7b" ++ String.intercalate "," (fields.filterMap id) ++ "\x7d"

/-! ## Stored data (`server/storage.ts`) -/

/-- A store row; only the fields the resolve path reads. -/
structure Store where
  name : String
  chain : String
  address : String
deriving DecidableEq

/-- An offer row from the Repository (`offers` table in
`shared/schema.ts`); nullable columns are `Option`. `lastSeen` is
modelled as its ISO rendering since only `lastSeen?.toISOString()` is
read. -/
structure StoredOffer where
  id : String
  storeId : Option String
  price : String
  currency : Option String
  availabilityType : String
  eta : Option String
  etaMinutes : Option Int
  distance : Option String
  distanceMiles : Option Rat
  inStock : Option Bool
  stockLevel : Option Int
  lastSeen : Option String
  deepLink : Option String
  margin : Option Int
  trustScore : Option Int
  isEligible : Option Bool
deriving DecidableEq

/-- Guard view of a stored offer: nullable numeric columns coerce as
JavaScript `null` does, and the boolean columns are truthy only when
`some true`. -/
def StoredOffer.guardView (o : StoredOffer) : GuardView :=
  { margin := o.margin
    trustScore := o.trustScore
    etaMinutes := o.etaMinutes
    distanceMiles := o.distanceMiles
    availabilityType := o.availabilityType
    inStock := o.inStock.getD false
    isEligible := o.isEligible.getD false }

/-- Model of the offer-formatting step of the resolve route
(routes.ts 205–227): join the store by `storeId` (`none` when the id is
null or the store is missing, and such offers are dropped), defaulting
falsy display fields exactly as the source does. `nowIso` models
`new Date().toISOString()`. -/
def formatOffer (stores : List (String × Store)) (nowIso : String)
    (o : StoredOffer) : Option PublicOffer :=
  match o.storeId with
  | none => none
  | some sid =>
    match (stores.find? (fun kv => kv.1 = sid)).map (fun kv => kv.2) with
    | none => none
    | some store =>
      some
        { id := o.id
          storeName := store.name
          storeChain := store.chain
          address := store.address
          distance := jsStrOr o.distance "0 mi"
          distanceMiles := o.distanceMiles.getD 0
          availabilityType := o.availabilityType
          eta := jsStrOr o.eta "Unknown"
          etaMinutes := o.etaMinutes.getD 0
          price := o.price
          currency := jsStrOr o.currency "USD"
          lastSeen := jsStrOr o.lastSeen nowIso
          deepLink := o.deepLink
          inStock := o.inStock.getD false
          stockLevel := o.stockLevel }

/-! ## The resolve orchestrator (`/api/resolve`, routes.ts 115–258) -/

/-- The response payload of `resolveResponseSchema`. -/
structure ResolveResponse where
  eligible : Bool
  offers : List PublicOffer
  cached : Bool
  timestamp : String
deriving DecidableEq

/-- A resolution-cache entry (routes.ts 8–11). -/
structure CacheEntry where
  response : ResolveResponse
  timestamp : Int
deriving DecidableEq

/-- `CACHE_TTL = 5 * 60 * 1000` milliseconds (routes.ts 14). -/
def CACHE_TTL : Int := 5 * 60 * 1000

/-- A `Map` keyed by strings, in insertion order; `set` on an existing key
overwrites in place. -/
def mapGet {β : Type} (m : List (String × β)) (k : String) : Option β :=
  (m.find? (fun kv => kv.1 = k)).map (fun kv => kv.2)

def mapSet {β : Type} (m : List (String × β)) (k : String) (v : β) : List (String × β) :=
  if (m.find? (fun kv => kv.1 = k)).isSome then
    m.map (fun kv => if kv.1 = k then (k, v) else kv)
  else m ++ [(k, v)]

/-- An audit record as `storage.createResolveRequest` persists it: the
raw request, the attached response when present, and the success flag
(`false` when not supplied). -/
structure AuditRecord where
  request : ResolveRequest
  response : Option ResolveResponse := none
  success : Bool := false
deriving DecidableEq

/-- The shared mutable state of the resolver: the resolution cache and
the append-only audit log. -/
structure ResolverState where
  cache : List (String × CacheEntry) := []
  audit : List AuditRecord := []
deriving DecidableEq

/-- Model of the body of `POST /api/resolve` after validation
(routes.ts 131–241), parameterised by the data the route reads:
`localOffers` are the Repository offers of the matched (or freshly
created) product, `stores` the store table, `backend` the result of
`resolveViaBackend`, `now` the clock and `nowIso` its ISO rendering.
The probabilistic `cleanExpiredCache` sweep is omitted: it deletes only
entries that are already stale at the same `now`, so it changes no
response. Returns the JSON response and the updated state. -/
def handleResolve (req : ResolveRequest) (localOffers : List StoredOffer)
    (stores : List (String × Store)) (backend : Option ResolveResponse)
    (now : Int) (nowIso : String) (st : ResolverState) :
    ResolveResponse × ResolverState :=
  let key := generateCacheKey req
  let hit : Option CacheEntry :=
    match mapGet st.cache key with
    | some entry => if now - entry.timestamp < CACHE_TTL then some entry else none
    | none => none
  match hit with
  | some entry => ({ entry.response with cached := true }, st)
  | none =>
    let st1 : ResolverState := { st with audit := st.audit ++ [{ request := req }] }
    let eligibleOffers := applyGuardFilters StoredOffer.guardView localOffers
    if eligibleOffers.isEmpty then
      match backend with
      | some proxied =>
        let st2 : ResolverState :=
          { cache := mapSet st1.cache key { response := proxied, timestamp := now }
            audit := st1.audit ++ [{ request := req, response := some proxied, success := true }] }
        ({ proxied with cached := false }, st2)
      | none =>
        ({ eligible := false, offers := [], cached := false, timestamp := nowIso }, st1)
    else
      let formatted := eligibleOffers.filterMap (formatOffer stores nowIso)
      let response : ResolveResponse :=
        { eligible := true, offers := prioritizeOffers formatted, cached := false,
          timestamp := nowIso }
      let st2 : ResolverState :=
        { cache := mapSet st1.cache key { response := response, timestamp := now }
          audit := st1.audit ++ [{ request := req, response := some response, success := true }] }
      (response, st2)

/-! ## Backend proxy adapter (`resolveViaBackend`, routes.ts 333–465) -/

/-- The pickup/delivery block of a raw backend offer. -/
structure RawService where
  available : Bool
  eta_min : Option Int
deriving DecidableEq

/-- The `store` block of a raw backend offer. -/
structure RawStore where
  name : Option String := none
  retailer : Option String := none
  chain : Option String := none
deriving DecidableEq

/-- A raw offer as the upstream service returns it (the shape read in
routes.ts 386–448). `none` on a numeric field models a value that fails
the `typeof x === 'number'` test. -/
structure RawOffer where
  id : Option String := none
  store : Option RawStore := none
  distance_km : Option Rat := none
  price_cents : Option Int := none
  price : Option String := none
  last_checked : Option String := none
  deep_link : Option String := none
  url : Option String := none
  confidence : Option Rat := none
  pickup : Option RawService := none
  delivery : Option RawService := none
deriving DecidableEq

/-- A normalized internal entry built from a raw backend offer: the
public offer shape plus the three guard-only fields, which
`resolveViaBackend` strips again before returning. -/
structure MappedEntry where
  pub : PublicOffer
  margin : Int
  trustScore : Int
  isEligible : Bool
deriving DecidableEq

def MappedEntry.guardView (e : MappedEntry) : GuardView :=
  { margin := some e.margin
    trustScore := some e.trustScore
    etaMinutes := some e.pub.etaMinutes
    distanceMiles := some e.pub.distanceMiles
    availabilityType := e.pub.availabilityType
    inStock := e.pub.inStock
    isEligible := e.isEligible }

/-- Whether `o.pickup?.available` is truthy. -/
def pickupAvail (o : RawOffer) : Bool :=
  match o.pickup with
  | some s => s.available
  | none => false

def deliveryAvail (o : RawOffer) : Bool :=
  match o.delivery with
  | some s => s.available
  | none => false

/-- The `distanceMiles` constant of the normalization (routes.ts 390):
kilometres divided by 1.60934, `0` when `distance_km` is not numeric. -/
def backendDistanceMiles (o : RawOffer) : Rat :=
  match o.distance_km with
  | some k => k / ((160934 : Rat) / 100000)
  | none => 0

/-- The `priceStr` constant of the normalization (routes.ts 391): integer
cents rendered as `$` plus two decimals, otherwise the raw display string
(empty-string defaulted). -/
def backendPriceStr (o : RawOffer) : String :=
  match o.price_cents with
  | some c => "$" ++ centsDisplay c
  | none => jsStrOr o.price ""

/-- The `trustScore` constant of the normalization (routes.ts 394–395):
the confidence (default 1) clamped to [0,1] and linearly scaled to
[0,100], rounded. -/
def backendTrustScore (o : RawOffer) : Int :=
  jsRound (max 0 (min 1 (o.confidence.getD 1)) * 100)

/-- One normalized entry pushed by the normalization loop
(routes.ts 398–447), shared between the pickup and the delivery push. -/
def backendEntry (nowIso : String) (idx : Nat) (o : RawOffer)
    (suffix availType : String) (svc : RawService) : MappedEntry :=
  let store := o.store.getD {}
  { pub :=
      { id := jsStrOr o.id ("backend-" ++ toString idx ++ suffix)
        storeName := jsStrOr store.name "Unknown"
        storeChain := jsStrOr store.retailer (jsStrOr store.chain "unknown")
        address := ""
        distance := if backendDistanceMiles o = 0 then "0 mi"
          else ratToFixed1 (backendDistanceMiles o) ++ " mi"
        distanceMiles := backendDistanceMiles o
        availabilityType := availType
        eta := match svc.eta_min with
          | some m => toString m ++ " min"
          | none => "Unknown"
        etaMinutes := svc.eta_min.getD 0
        price := backendPriceStr o
        currency := "USD"
        lastSeen := jsStrOr o.last_checked nowIso
        deepLink := jsOrOpt o.deep_link o.url
        inStock := true
        stockLevel := none }
    margin := 100
    trustScore := backendTrustScore o
    isEligible := true }

/-- Normalization of one raw backend offer into up to two internal
entries (routes.ts 386–448): a pickup entry when pickup is available and
a delivery entry when delivery is available. -/
def mapBackendOffer (nowIso : String) (idx : Nat) (o : RawOffer) : List MappedEntry :=
  (match o.pickup with
    | some svc => if svc.available then [backendEntry nowIso idx o "-p" "pickup" svc] else []
    | none => []) ++
  (match o.delivery with
    | some svc => if svc.available then [backendEntry nowIso idx o "-d" "delivery" svc] else []
    | none => [])

/-- Model of `zipToLatLon` (routes.ts 322–331): the static three-entry
lookup table, `undefined` on a falsy or unknown ZIP. -/
def zipToLatLon (zip : Option String) : Option (Rat × Rat) :=
  match zip with
  | none => none
  | some z =>
    if z = "" then none
    else if z = "94103" then some ((377725 : Rat) / 10000, -((1224091 : Rat) / 10000))
    else if z = "94107" then some ((377609 : Rat) / 10000, -((1224015 : Rat) / 10000))
    else if z = "10001" then some ((407506 : Rat) / 10000, -((739970 : Rat) / 10000))
    else none

/-- The candidate product ids `resolveViaBackend` queries
(routes.ts 335–344): the coalesced GTIN identifier (with and without a
`gtin::` tag) when truthy, then the ASIN likewise. -/
def candidateIds (r : ResolveRequest) : List String :=
  let g := jsOrOpt (objGet r.identifiers "gtin")
    (jsOrOpt (objGet r.identifiers "upc") (objGet r.identifiers "ean"))
  let a := objGet r.identifiers "asin"
  (if strTruthy g then ["gtin::" ++ g.getD "", g.getD ""] else []) ++
    (if strTruthy a then ["asin::" ++ a.getD "", a.getD ""] else [])

/-- Outcome of one backend HTTP call: a rejected fetch (which throws and
aborts the whole adapter), a non-OK HTTP status, or an OK response whose
parsed body carries the given offers array (a body that is not an array,
or fails to parse, is read as `[]`). -/
inductive FetchOutcome where
  | err : FetchOutcome
  | notOk : FetchOutcome
  | ok : List RawOffer → FetchOutcome
deriving DecidableEq

/-- One candidate loop of `resolveViaBackend` (routes.ts 358–380): try
each candidate id in order, stop at the first OK response with a
nonempty offers array; a rejected fetch aborts with an exception. -/
def tryCandidates (net : String → FetchOutcome) : List String → Except Unit (List RawOffer)
  | [] => Except.ok []
  | pid :: rest =>
    match net pid with
    | FetchOutcome.err => Except.error ()
    | FetchOutcome.notOk => tryCandidates net rest
    | FetchOutcome.ok offers =>
      if offers.isEmpty then tryCandidates net rest else Except.ok offers

/-- Model of `resolveViaBackend` (routes.ts 333–465), parameterised by
the network: `net1` answers the `/api/resolve` attempts and `net2` the
`/v1/offers` fallback attempts, keyed by candidate product id. Every
exception is caught and becomes `null` (`none`). -/
def resolveViaBackend (r : ResolveRequest) (net1 net2 : String → FetchOutcome)
    (nowIso : String) : Option ResolveResponse :=
  let candidates := candidateIds r
  if candidates.isEmpty then none
  else
    match zipToLatLon r.zip with
    | none => none
    | some _loc =>
      let attempt : Except Unit (List RawOffer) :=
        match tryCandidates net1 candidates with
        | Except.error e => Except.error e
        | Except.ok offers1 =>
          if offers1.isEmpty then tryCandidates net2 candidates else Except.ok offers1
      match attempt with
      | Except.error _ => none
      | Except.ok backendOffers =>
        if backendOffers.isEmpty then none
        else
          let mapped := backendOffers.enum.flatMap (fun p => mapBackendOffer nowIso p.1 p.2)
          let filtered :=
            (applyGuardFilters MappedEntry.guardView mapped).map MappedEntry.pub
          if filtered.isEmpty then none
          else
            some { eligible := true, offers := prioritizeOffers filtered, cached := false,
                   timestamp := nowIso }

/-! ## Product lookup (`MemStorage.getProductByIdentifiers`) -/

/-- A product row (`products` table); only string-valued columns are
listed, since `product[key] === value` with a string `value` can only
hold at a string-valued field (dates, arrays and nested records never
compare equal to a string under `===`). -/
structure Product where
  id : String
  gtin : Option String := none
  upc : Option String := none
  ean : Option String := none
  asin : Option String := none
  sku : Option String := none
  brand : Option String := none
  title : String
  variant : Option String := none
  price : Option String := none
  currency : Option String := none
  platform : String
  url : String
deriving DecidableEq

/-- JavaScript property access `product[key]` for the string-valued
columns: `none` models both `null` column values and an unknown key
(`undefined`), neither of which is `===` to any string. -/
def productField (p : Product) (k : String) : Option String :=
  if k = "id" then some p.id
  else if k = "gtin" then p.gtin
  else if k = "upc" then p.upc
  else if k = "ean" then p.ean
  else if k = "asin" then p.asin
  else if k = "sku" then p.sku
  else if k = "brand" then p.brand
  else if k = "title" then some p.title
  else if k = "variant" then p.variant
  else if k = "price" then p.price
  else if k = "currency" then p.currency
  else if k = "platform" then some p.platform
  else if k = "url" then some p.url
  else none

/-- Whether some key–value pair of the request's identifiers record
matches the product's same-named field (the inner loop of
`getProductByIdentifiers`, storage.ts). -/
def matchesIdentifiers (ids : List (String × String)) (p : Product) : Bool :=
  ids.any (fun kv => productField p kv.1 = some kv.2)

/-- Model of `MemStorage.getProductByIdentifiers`: the first product in
insertion order for which some identifier pair matches. -/
def getProductByIdentifiers (products : List Product)
    (ids : List (String × String)) : Option Product :=
  products.find? (fun p => matchesIdentifiers ids p)

/-! ## Theorems -/

/-- Pointwise, the code's guard predicate on a fully-populated candidate
offer equals the amended specification predicate: the margin check is
bypassed not only when the margin is absent but also when it is `0`,
because `offer.margin && ...` is falsy at `0`. -/
lemma guardPass_candidate (o : CandidateOffer) :
    guardPass o.guardView = amendedGuardPass o := by
  rcases o with ⟨margin, t, e, d, a, s, el⟩
  rw [Bool.eq_iff_iff]
  rcases margin with _ | m <;>
    simp [guardPass, amendedGuardPass, CandidateOffer.guardView, MIN_MARGIN,
      MIN_TRUST_SCORE, MAX_ETA_MINUTES, MAX_DISTANCE_MILES, not_lt, Decidable.imp_iff_not_or] <;>
    tauto

/-- C1 (amended): the Guard Filter returns exactly the sublist, in the
offers' original relative order, of those offers satisfying: margin, if
present and nonzero, at least 30 (offers with no margin field, or with
margin 0, bypass this check); trustScore at least 80; etaMinutes at most
480; for pickup offers distanceMiles at most 50; inStock; and isEligible.
It is a pure function of the list (deterministic, no side effects). -/
theorem C1_guard_filter (offers : List CandidateOffer) :
    applyGuardFilters CandidateOffer.guardView offers = offers.filter amendedGuardPass ∧
      (applyGuardFilters CandidateOffer.guardView offers).Sublist offers := by
  constructor
  · exact List.filter_congr (fun o _ => guardPass_candidate o)
  · exact List.filter_sublist offers

/-- A candidate offer whose margin is present and equal to `0`: the claim
as stated filters it out (present margin below 30), but the code keeps
it. -/
def c1Bad : CandidateOffer :=
  { margin := some 0, trustScore := 95, etaMinutes := 10, distanceMiles := 1,
    availabilityType := "delivery", inStock := true, isEligible := true }

/-- C1 counterexample: on a singleton list holding an offer with margin
`0`, the code's Guard Filter keeps the offer although the claimed filter
("margin, if present, at least 30") removes it. -/
theorem C1_counterexample :
    applyGuardFilters CandidateOffer.guardView [c1Bad] = [c1Bad] ∧
      List.filter specGuardPass [c1Bad] = [] := by decide

/-- C5: the cache key is a function of only the coalesced
gtin-or-upc-or-ean identifier, the asin identifier, the platform, the
variant and the zip; in particular two requests differing only in title,
brand and/or attributes produce the identical key string. -/
theorem C5_cache_key (r1 r2 : ResolveRequest)
    (hg : jsOrOpt (objGet r1.identifiers "gtin")
        (jsOrOpt (objGet r1.identifiers "upc") (objGet r1.identifiers "ean")) =
      jsOrOpt (objGet r2.identifiers "gtin")
        (jsOrOpt (objGet r2.identifiers "upc") (objGet r2.identifiers "ean")))
    (ha : objGet r1.identifiers "asin" = objGet r2.identifiers "asin")
    (hp : r1.platform = r2.platform) (hv : r1.variant = r2.variant)
    (hz : r1.zip = r2.zip) :
    generateCacheKey r1 = generateCacheKey r2 ∧
      ∀ t b ats, generateCacheKey
          { r1 with title := t, brand := b, attributes := ats } = generateCacheKey r1 := by
  constructor
  · simp only [generateCacheKey, hg, ha, hp, hv, hz]
  · intro t b ats
    rfl

/-- Two concrete requests agreeing on identifiers, platform, variant and
zip but differing in title and attributes. -/
def c5Req1 : ResolveRequest :=
  { identifiers := [("upc", "027242920156"), ("asin", "B0BXQBHL5D")],
    title := some "Sony WH-1000XM5", attributes := [("color", "Black")],
    platform := "amazon", url := "https://a.example/1", zip := some "10001" }

def c5Req2 : ResolveRequest :=
  { identifiers := [("upc", "027242920156"), ("asin", "B0BXQBHL5D")],
    title := some "Totally different title", attributes := [("color", "Silver")],
    platform := "amazon", url := "https://a.example/1", zip := some "10001" }

/-- C5 witness: the theorem applied to the two concrete requests above. -/
theorem C5_cache_key_witness :
    generateCacheKey c5Req1 = generateCacheKey c5Req2 :=
  (C5_cache_key c5Req1 c5Req2 (by decide) (by decide) (by decide) (by decide)
    (by decide)).1

/-- C10: `getProductByIdentifiers` returns the first stored product, in
insertion order, for which some key–value pair of the request's
identifiers record equals the product's same-named field; the match is
over any key of the record, so an identifiers record containing
`platform: "amazon"` matches any product whose platform is `"amazon"`. -/
theorem C10_product_lookup :
    (∀ (products : List Product) (ids : List (String × String)) (p : Product),
      getProductByIdentifiers products ids = some p ↔
        matchesIdentifiers ids p = true ∧
          ∃ l1 l2, products = l1 ++ p :: l2 ∧
            ∀ q ∈ l1, matchesIdentifiers ids q = false) ∧
    (∀ (ids : List (String × String)) (p : Product),
      matchesIdentifiers ids p = true ↔
        ∃ kv ∈ ids, productField p kv.1 = some kv.2) ∧
    (∀ (ids : List (String × String)) (p : Product),
      ("platform", "amazon") ∈ ids → p.platform = "amazon" →
        matchesIdentifiers ids p = true) ∧
    (∀ (products : List Product) (ids : List (String × String)) (p : Product),
      p ∈ products → matchesIdentifiers ids p = true →
        (getProductByIdentifiers products ids).isSome = true) := by
  refine ⟨?_, ?_, ?_, ?_⟩
  · intro products ids p
    rw [getProductByIdentifiers, List.find?_eq_some]
    constructor
    · rintro ⟨hm, l1, l2, rfl, hall⟩
      exact ⟨hm, l1, l2, rfl, fun q hq => by simpa using hall q hq⟩
    · rintro ⟨hm, l1, l2, rfl, hall⟩
      exact ⟨hm, l1, l2, rfl, fun q hq => by simp [hall q hq]⟩
  · intro ids p
    simp [matchesIdentifiers]
  · intro ids p hmem hp
    simp only [matchesIdentifiers, List.any_eq_true]
    exact ⟨("platform", "amazon"), hmem, by simp [productField, hp]⟩
  · intro products ids p hp hm
    rw [getProductByIdentifiers, List.find?_isSome]
    exact ⟨p, hp, hm⟩

/-- Two concrete products; only the second has platform `"amazon"`. -/
def c10P1 : Product :=
  { id := "p1", title := "Widget", platform := "walmart", url := "https://w.example" }

def c10P2 : Product :=
  { id := "p2", title := "Headphones", platform := "amazon", url := "https://a.example" }

/-- C10 witness: with an identifiers record containing only
`platform: "amazon"`, the lookup over the two products above returns the
product with platform `"amazon"`. -/
theorem C10_product_lookup_witness :
    getProductByIdentifiers [c10P1, c10P2] [("platform", "amazon")] = some c10P2 :=
  (C10_product_lookup.1 [c10P1, c10P2] [("platform", "amazon")] c10P2).mpr
    ⟨C10_product_lookup.2.2.1 [("platform", "amazon")] c10P2 (by decide) (by decide),
      [c10P1], [], rfl, by decide⟩

/-- The companion comparator is transitive. -/
lemma totalLe_trans (a b c : PublicOffer)
    (hab : totalLe a b = true) (hbc : totalLe b c = true) : totalLe a c = true := by
  simp only [totalLe, decide_eq_true_eq] at *
  rcases hab with hab | ⟨hab1, hab2⟩
  · rcases hbc with hbc | ⟨hbc1, hbc2⟩
    · exact Or.inl (lt_trans hab hbc)
    · exact Or.inl (hbc1 ▸ hab)
  · rcases hbc with hbc | ⟨hbc1, hbc2⟩
    · exact Or.inl (hab1 ▸ hbc)
    · refine Or.inr ⟨hab1.trans hbc1, ?_⟩
      rcases hab2 with h | ⟨h1, h2⟩
      · rcases hbc2 with h' | ⟨h'1, h'2⟩
        · exact Or.inl (lt_trans h h')
        · exact Or.inl (h'1 ▸ h)
      · rcases hbc2 with h' | ⟨h'1, h'2⟩
        · exact Or.inl (h1 ▸ h')
        · exact Or.inr ⟨h1.trans h'1, le_trans h2 h'2⟩

/-- The companion comparator is total. -/
lemma totalLe_total (a b : PublicOffer) : (totalLe a b || totalLe b a) = true := by
  simp only [totalLe, Bool.or_eq_true, decide_eq_true_eq]
  rcases lt_trichotomy (availRank a.availabilityType) (availRank b.availabilityType) with h | h | h
  · exact Or.inl (Or.inl h)
  · rcases lt_trichotomy a.etaMinutes b.etaMinutes with h' | h' | h'
    · exact Or.inl (Or.inr ⟨h, Or.inl h'⟩)
    · rcases le_total (parsePriceD a.price) (parsePriceD b.price) with h'' | h''
      · exact Or.inl (Or.inr ⟨h, Or.inr ⟨h', h''⟩⟩)
      · exact Or.inr (Or.inr ⟨h.symm, Or.inr ⟨h'.symm, h''⟩⟩)
    · exact Or.inr (Or.inr ⟨h.symm, Or.inl h'⟩)
  · exact Or.inr (Or.inl h)

/-- On offers whose prices both parse, the boolean comparator the sort
consults coincides with the total lexicographic companion comparator. -/
lemma jsSortLe_eq_totalLe (a b : PublicOffer)
    (ha : (parsePrice a.price).isSome = true) (hb : (parsePrice b.price).isSome = true) :
    jsSortLe a b = totalLe a b := by
  obtain ⟨pa, hpa⟩ := Option.isSome_iff_exists.mp ha
  obtain ⟨pb, hpb⟩ := Option.isSome_iff_exists.mp hb
  rw [Bool.eq_iff_iff]
  by_cases hty : a.availabilityType = b.availabilityType
  · have hrank : availRank a.availabilityType = availRank b.availabilityType := by
      rw [hty]
    by_cases heta : a.etaMinutes = b.etaMinutes
    · simp [jsSortLe, offerCmp, totalLe, hty, heta, hpa, hpb, hrank, sub_nonpos,
        parsePriceD]
    · have : ((a.etaMinutes : Rat) - (b.etaMinutes : Rat) ≤ 0) ↔ a.etaMinutes < b.etaMinutes := by
        rw [sub_nonpos]
        constructor
        · intro h
          exact lt_of_le_of_ne (by exact_mod_cast h) heta
        · intro h
          exact_mod_cast le_of_lt h
      simp [jsSortLe, offerCmp, totalLe, hty, heta, hrank, this]
  · by_cases hap : a.availabilityType = "pickup"
    · have hbp : ¬ b.availabilityType = "pickup" := fun h => hty (hap.trans h.symm)
      have c1 : a.availabilityType ≠ b.availabilityType ∧ a.availabilityType = "pickup" :=
        ⟨hty, hap⟩
      simp only [jsSortLe, offerCmp, if_pos c1]
      rw [Bool.eq_iff_iff]
      simp only [totalLe, availRank, if_pos hap, if_neg hbp, decide_eq_true_eq]
      norm_num
    · by_cases hbp : b.availabilityType = "pickup"
      · have c1 : ¬ (a.availabilityType ≠ b.availabilityType ∧
            a.availabilityType = "pickup") := fun h => hap h.2
        have c2 : a.availabilityType ≠ b.availabilityType ∧ b.availabilityType = "pickup" :=
          ⟨hty, hbp⟩
        simp only [jsSortLe, offerCmp, if_neg c1, if_pos c2]
        rw [Bool.eq_iff_iff]
        simp only [totalLe, availRank, if_neg hap, if_pos hbp, decide_eq_true_eq]
        norm_num
      · have c1 : ¬ (a.availabilityType ≠ b.availabilityType ∧
            a.availabilityType = "pickup") := fun h => hap h.2
        have c2 : ¬ (a.availabilityType ≠ b.availabilityType ∧
            b.availabilityType = "pickup") := fun h => hbp h.2
        have hrank : availRank a.availabilityType = availRank b.availabilityType := by
          simp [availRank, hap, hbp]
        by_cases heta : a.etaMinutes = b.etaMinutes
        · rw [Bool.eq_iff_iff]
          simp only [jsSortLe, offerCmp, if_neg c1, if_neg c2,
            if_neg (fun h : a.etaMinutes ≠ b.etaMinutes => h heta), heta, hpa, hpb]
          simp [totalLe, hrank, heta, sub_nonpos, parsePriceD, hpa, hpb]
        · have hcast : ((a.etaMinutes : Rat) - (b.etaMinutes : Rat) ≤ 0) ↔
              a.etaMinutes < b.etaMinutes := by
            rw [sub_nonpos]
            constructor
            · intro h
              exact lt_of_le_of_ne (by exact_mod_cast h) heta
            · intro h
              exact_mod_cast le_of_lt h
          rw [Bool.eq_iff_iff]
          simp only [jsSortLe, offerCmp, if_neg c1, if_neg c2, if_pos heta]
          simp [totalLe, hrank, heta, hcast]

/-- On a list whose prices all parse, the prioritizer equals a merge sort
by the total companion comparator. -/
lemma prioritizeOffers_eq_totalLe (offers : List PublicOffer)
    (h : ∀ o ∈ offers, (parsePrice o.price).isSome = true) :
    prioritizeOffers offers = offers.mergeSort totalLe := by
  have hmap := List.map_mergeSort (r := jsSortLe) (s := totalLe) (f := id)
    (l := offers) (fun a ha b hb => by simpa using jsSortLe_eq_totalLe a b (h a ha) (h b hb))
  simpa [prioritizeOffers] using hmap

/-- C4: on any offer list whose display prices parse, the prioritizer
output is a permutation of the input in which every pickup offer precedes
every non-pickup offer regardless of ETA and price; offers tying on the
pickup criterion are ordered by ascending etaMinutes, and offers tying
also on etaMinutes are ordered by ascending parsed price (the display
string stripped of `$` and `,` and read as a number). -/
theorem C4_prioritizer_order (offers : List PublicOffer)
    (h : ∀ o ∈ offers, (parsePrice o.price).isSome = true) :
    (prioritizeOffers offers).Perm offers ∧
      (prioritizeOffers offers).Pairwise (fun a b =>
        (b.availabilityType = "pickup" → a.availabilityType = "pickup") ∧
        (availRank a.availabilityType = availRank b.availabilityType →
          a.etaMinutes ≤ b.etaMinutes) ∧
        (availRank a.availabilityType = availRank b.availabilityType →
          a.etaMinutes = b.etaMinutes →
          parsePriceD a.price ≤ parsePriceD b.price)) := by
  constructor
  · exact List.mergeSort_perm offers jsSortLe
  · rw [prioritizeOffers_eq_totalLe offers h]
    refine (List.sorted_mergeSort totalLe_trans
      (fun a b => totalLe_total a b) offers).imp ?_
    intro a b hab
    simp only [totalLe, decide_eq_true_eq] at hab
    rcases hab with hab | ⟨h1, h2⟩
    · refine ⟨?_, ?_, ?_⟩
      · intro hbp
        by_cases hap : a.availabilityType = "pickup"
        · exact hap
        · simp only [availRank, if_pos hbp, if_neg hap] at hab
          exact absurd hab (by decide)
      · intro hr
        rw [hr] at hab
        exact absurd hab (lt_irrefl _)
      · intro hr _
        rw [hr] at hab
        exact absurd hab (lt_irrefl _)
    · refine ⟨?_, ?_, ?_⟩
      · intro hbp
        by_contra hap
        simp [availRank, hbp, hap] at h1
      · intro _
        rcases h2 with h2 | ⟨h2, _⟩
        · exact le_of_lt h2
        · exact le_of_eq h2
      · intro _ heta
        rcases h2 with h2 | ⟨_, h2⟩
        · exact absurd h2 (heta ▸ lt_irrefl _)
        · exact h2

/-- A minimal public offer for concrete sort inputs. -/
def mkOffer (i : String) (ty : String) (eta : Int) (price : String) : PublicOffer :=
  { id := i, storeName := "S", storeChain := "s", address := "", distance := "0 mi",
    distanceMiles := 0, availabilityType := ty, eta := "", etaMinutes := eta,
    price := price, currency := "USD", lastSeen := "", deepLink := none,
    inStock := true, stockLevel := none }

def c4List : List PublicOffer :=
  [mkOffer "a" "delivery" 30 "$1,234.50", mkOffer "b" "pickup" 240 "$339.95",
    mkOffer "c" "pickup" 240 "$329.99"]

/-- C4 witness: the theorem applied to a concrete three-offer list (a
cheap fast delivery offer and two pickup offers). -/
theorem C4_prioritizer_order_witness :
    (∀ o ∈ c4List, (parsePrice o.price).isSome = true) ∧
      ((prioritizeOffers c4List).Perm c4List ∧
        (prioritizeOffers c4List).Pairwise (fun a b =>
          (b.availabilityType = "pickup" → a.availabilityType = "pickup") ∧
          (availRank a.availabilityType = availRank b.availabilityType →
            a.etaMinutes ≤ b.etaMinutes) ∧
          (availRank a.availabilityType = availRank b.availabilityType →
            a.etaMinutes = b.etaMinutes →
            parsePriceD a.price ≤ parsePriceD b.price))) :=
  ⟨by decide, C4_prioritizer_order c4List (by decide)⟩

/-- C9: the prioritizer is stable. For two offers of a list (with parsing
prices) that compare equal under the three-level comparator — the same
availability privilege (both pickup, or neither pickup), equal
etaMinutes, and equal parsed price — their relative order in the output
equals their relative order in the input. -/
theorem C9_prioritizer_stable (offers : List PublicOffer) (a b : PublicOffer)
    (h : ∀ o ∈ offers, (parsePrice o.price).isSome = true)
    (hrank : availRank a.availabilityType = availRank b.availabilityType)
    (heta : a.etaMinutes = b.etaMinutes)
    (hprice : parsePriceD a.price = parsePriceD b.price)
    (hsub : [a, b].Sublist offers) :
    [a, b].Sublist (prioritizeOffers offers) := by
  rw [prioritizeOffers_eq_totalLe offers h]
  refine List.pair_sublist_mergeSort totalLe_trans (fun x y => totalLe_total x y) ?_ hsub
  simp only [totalLe, decide_eq_true_eq]
  exact Or.inr ⟨hrank, Or.inr ⟨heta, le_of_eq hprice⟩⟩

def c9A : PublicOffer := mkOffer "first" "delivery" 60 "$10.00"

def c9B : PublicOffer := mkOffer "second" "delivery" 60 "$10.00"

/-- C9 witness: two delivery offers with equal ETA and equal parsed price
keep their input order across the prioritizer. -/
theorem C9_prioritizer_stable_witness :
    [c9A, c9B].Sublist (prioritizeOffers [c9A, mkOffer "x" "pickup" 1 "$1.00", c9B]) :=
  C9_prioritizer_stable [c9A, mkOffer "x" "pickup" 1 "$1.00", c9B] c9A c9B
    (by decide) (by decide) (by decide) rfl (by decide)

/-- Every response produced on the cache-miss path carries
`cached: false`: only the cache-hit branch sets `cached: true`. -/
lemma handleResolve_miss_cached_false (req : ResolveRequest)
    (localOffers : List StoredOffer) (stores : List (String × Store))
    (backend : Option ResolveResponse) (now : Int) (nowIso : String)
    (st : ResolverState)
    (hmiss : ∀ e, mapGet st.cache (generateCacheKey req) = some e →
      ¬ (now - e.timestamp < CACHE_TTL)) :
    (handleResolve req localOffers stores backend now nowIso st).1.cached = false := by
  rcases hget : mapGet st.cache (generateCacheKey req) with _ | e
  · cases backend <;>
      by_cases hemp : (applyGuardFilters StoredOffer.guardView localOffers).isEmpty <;>
        simp [handleResolve, hget, hemp]
  · have hstale := hmiss e hget
    cases backend <;>
      by_cases hemp : (applyGuardFilters StoredOffer.guardView localOffers).isEmpty <;>
        simp [handleResolve, hget, hstale, hemp]

/-- C2: with an entry for the request's fingerprint stored at time
`entry.timestamp`, a resolve call at time `now` is answered with
`cached: true` exactly when `now - entry.timestamp < CACHE_TTL`
(`CACHE_TTL` being 5 minutes in milliseconds); a fresh entry is answered
with the stored response, and at or past the TTL the call re-executes
resolution and its response carries `cached: false`. -/
theorem C2_cache_ttl (req : ResolveRequest) (localOffers : List StoredOffer)
    (stores : List (String × Store)) (backend : Option ResolveResponse)
    (now : Int) (nowIso : String) (st : ResolverState) (entry : CacheEntry)
    (hget : mapGet st.cache (generateCacheKey req) = some entry) :
    ((handleResolve req localOffers stores backend now nowIso st).1.cached = true ↔
        now - entry.timestamp < CACHE_TTL) ∧
      (now - entry.timestamp < CACHE_TTL →
        (handleResolve req localOffers stores backend now nowIso st).1 =
          { entry.response with cached := true }) := by
  by_cases hfresh : now - entry.timestamp < CACHE_TTL
  · constructor
    · simp [handleResolve, hget, hfresh]
    · intro _
      simp [handleResolve, hget, hfresh]
  · have hm := handleResolve_miss_cached_false req localOffers stores backend now nowIso st
      (fun e he => by
        rw [hget] at he
        cases he
        exact hfresh)
    constructor
    · rw [hm]
      simp [hfresh]
    · intro h
      exact absurd h hfresh

def c2Req : ResolveRequest :=
  { identifiers := [("gtin", "027242920156")], platform := "amazon",
    url := "https://a.example", zip := some "10001" }

def c2Entry : CacheEntry :=
  { response := { eligible := true, offers := [], cached := false, timestamp := "t0" },
    timestamp := 0 }

def c2State : ResolverState := { cache := [(generateCacheKey c2Req, c2Entry)] }

/-- C2 witness: a response cached at time 0 is served from the cache at
time `CACHE_TTL - 1` (299999 ms) and answered with `cached: false` at
time `CACHE_TTL + 1` (300001 ms). -/
theorem C2_cache_ttl_witness :
    (handleResolve c2Req [] [] none 299999 "t1" c2State).1 =
        { c2Entry.response with cached := true } ∧
      (handleResolve c2Req [] [] none 300001 "t2" c2State).1.cached = false := by
  constructor
  · exact (C2_cache_ttl c2Req [] [] none 299999 "t1" c2State c2Entry (by decide)).2
      (by decide)
  · have h := (C2_cache_ttl c2Req [] [] none 300001 "t2" c2State c2Entry (by decide)).1
    rcases hb : (handleResolve c2Req [] [] none 300001 "t2" c2State).1.cached with _ | _
    · rfl
    · exact absurd (h.mp hb) (by decide)

/-- C3: when the guard-filtered local offer list is empty and the backend
proxy yields nothing, the orchestrator answers the explicit ineligible
payload `{ eligible: false, offers: [], cached: false }` and writes
nothing to the cache, so any subsequent identical request is again not
served from the cache (its response carries `cached: false`, i.e. the
full resolution re-executes). -/
theorem C3_no_negative_caching (req : ResolveRequest)
    (localOffers : List StoredOffer) (stores : List (String × Store))
    (now : Int) (nowIso : String) (st : ResolverState)
    (hmiss : mapGet st.cache (generateCacheKey req) = none)
    (hempty : applyGuardFilters StoredOffer.guardView localOffers = []) :
    (handleResolve req localOffers stores none now nowIso st).1 =
        { eligible := false, offers := [], cached := false, timestamp := nowIso } ∧
      (handleResolve req localOffers stores none now nowIso st).2.cache = st.cache ∧
      ∀ localOffers2 stores2 backend2 now2 nowIso2,
        (handleResolve req localOffers2 stores2 backend2 now2 nowIso2
          (handleResolve req localOffers stores none now nowIso st).2).1.cached = false := by
  refine ⟨?_, ?_, ?_⟩
  · simp [handleResolve, hmiss, hempty]
  · simp [handleResolve, hmiss, hempty]
  · intro localOffers2 stores2 backend2 now2 nowIso2
    have hcache : (handleResolve req localOffers stores none now nowIso st).2.cache =
        st.cache := by
      simp [handleResolve, hmiss, hempty]
    refine handleResolve_miss_cached_false req localOffers2 stores2 backend2 now2 nowIso2
      _ (fun e he => ?_)
    rw [hcache, hmiss] at he
    cases he

def c3Req : ResolveRequest :=
  { identifiers := [("asin", "B0BXQBHL5D")], platform := "amazon",
    url := "https://a.example", zip := some "99999" }

/-- C3 witness: the theorem applied to a concrete request against an
empty repository, an empty cache and no backend result. -/
theorem C3_no_negative_caching_witness :
    (handleResolve c3Req [] [] none 0 "t" {}).1 =
        { eligible := false, offers := [], cached := false, timestamp := "t" } ∧
      (handleResolve c3Req [] [] none 0 "t" {}).2.cache = [] ∧
      (handleResolve c3Req [] [] none 1000 "t2"
        (handleResolve c3Req [] [] none 0 "t" {}).2).1.cached = false := by
  have h := C3_no_negative_caching c3Req [] [] 0 "t" {} (by decide) (by decide)
  exact ⟨h.1, h.2.1, h.2.2 [] [] none 1000 "t2"⟩

/-- C8 counterexample: a non-cache-hit resolve call that takes the
ineligible/empty-offers path persists exactly one audit record (the
start record), not two. -/
theorem C8_counterexample :
    ((handleResolve c3Req [] [] none 0 "t" {}).2.audit).length = 1 ∧
      ¬ ((handleResolve c3Req [] [] none 0 "t" {}).2.audit).length = 2 := by
  decide

/-- C8 (amended): a non-cache-hit resolve call persists the start audit
record (the raw request, no response, success false) and, exactly on the
paths that produce an offers response (local offers passing the guard, or
a backend proxy result), a second completion record carrying the response
with `success` set — two records in total; the ineligible/empty-offers
path persists only the start record. -/
theorem C8_audit_records (req : ResolveRequest) (localOffers : List StoredOffer)
    (stores : List (String × Store)) (backend : Option ResolveResponse)
    (now : Int) (nowIso : String) (st : ResolverState)
    (hmiss : ∀ e, mapGet st.cache (generateCacheKey req) = some e →
      ¬ (now - e.timestamp < CACHE_TTL)) :
    (applyGuardFilters StoredOffer.guardView localOffers = [] → backend = none →
        (handleResolve req localOffers stores backend now nowIso st).2.audit =
          st.audit ++ [{ request := req }]) ∧
      (∀ p, applyGuardFilters StoredOffer.guardView localOffers = [] → backend = some p →
        (handleResolve req localOffers stores backend now nowIso st).2.audit =
          st.audit ++ [{ request := req },
            { request := req, response := some p, success := true }]) ∧
      (applyGuardFilters StoredOffer.guardView localOffers ≠ [] →
        (handleResolve req localOffers stores backend now nowIso st).2.audit =
          st.audit ++ [{ request := req },
            { request := req,
              response := some (handleResolve req localOffers stores backend now nowIso st).1,
              success := true }]) := by
  refine ⟨?_, ?_, ?_⟩ <;>
    rcases hget : mapGet st.cache (generateCacheKey req) with _ | e
  · intro hempty hb
    subst hb
    simp [handleResolve, hget, hempty]
  · intro hempty hb
    subst hb
    have hstale := hmiss e hget
    simp [handleResolve, hget, hstale, hempty]
  · intro p hempty hb
    subst hb
    simp [handleResolve, hget, hempty]
  · intro p hempty hb
    subst hb
    have hstale := hmiss e hget
    simp [handleResolve, hget, hstale, hempty]
  · intro hne
    have hne' : (applyGuardFilters StoredOffer.guardView localOffers).isEmpty = false :=
      List.isEmpty_eq_false.mpr hne
    simp [handleResolve, hget, hne']
  · intro hne
    have hstale := hmiss e hget
    have hne' : (applyGuardFilters StoredOffer.guardView localOffers).isEmpty = false :=
      List.isEmpty_eq_false.mpr hne
    simp [handleResolve, hget, hstale, hne']

def c8Proxied : ResolveResponse :=
  { eligible := true, offers := [], cached := false, timestamp := "tp" }

def c8Start : AuditRecord := { request := c3Req }

def c8Done : AuditRecord :=
  { request := c3Req, response := some c8Proxied, success := true }

/-- C8 witness: the amended theorem applied concretely — a proxied
resolution persists exactly the start record followed by the completion
record. -/
theorem C8_audit_records_witness :
    (handleResolve c3Req [] [] (some c8Proxied) 0 "t" {}).2.audit =
      [c8Start, c8Done] :=
  (C8_audit_records c3Req [] [] (some c8Proxied) 0 "t" {}
    (fun e he => by
      simp [mapGet] at he)).2.1 c8Proxied (by decide) rfl

/-- Clamping a confidence already in `[0, 1]` is the identity, so the
trust score is the plain linear scaling there. -/
lemma clampScale (c : Rat) (h0 : 0 ≤ c) (h1 : c ≤ 1) :
    jsRound (max 0 (min 1 c) * 100) = jsRound (c * 100) := by
  rw [min_eq_right h1, max_eq_right h0]

/-- Membership in the normalized entry list: every element is the pickup
entry (when pickup is available) or the delivery entry (when delivery is
available). -/
lemma mem_mapBackendOffer {nowIso : String} {idx : Nat} {o : RawOffer} {e : MappedEntry}
    (he : e ∈ mapBackendOffer nowIso idx o) :
    (∃ svc, o.pickup = some svc ∧ svc.available = true ∧
      e = backendEntry nowIso idx o "-p" "pickup" svc) ∨
    (∃ svc, o.delivery = some svc ∧ svc.available = true ∧
      e = backendEntry nowIso idx o "-d" "delivery" svc) := by
  simp only [mapBackendOffer, List.mem_append] at he
  rcases he with he | he
  · left
    rcases hpu : o.pickup with _ | svc
    · simp [hpu] at he
    · rw [hpu] at he
      cases hsa : svc.available
      · simp [hsa] at he
      · simp [hsa] at he
        exact ⟨svc, rfl, hsa, he⟩
  · right
    rcases hde : o.delivery with _ | svc
    · simp [hde] at he
    · rw [hde] at he
      cases hsa : svc.available
      · simp [hsa] at he
      · simp [hsa] at he
        exact ⟨svc, rfl, hsa, he⟩

/-- The per-entry field facts claim C6 asserts, proved once for the
shared entry builder. -/
lemma backendEntry_fields (nowIso : String) (idx : Nat) (o : RawOffer)
    (suffix ty : String) (svc : RawService) :
    (backendEntry nowIso idx o suffix ty svc).margin = 100 ∧
    (backendEntry nowIso idx o suffix ty svc).isEligible = true ∧
    (backendEntry nowIso idx o suffix ty svc).pub.inStock = true ∧
    (∀ k, o.distance_km = some k →
      (backendEntry nowIso idx o suffix ty svc).pub.distanceMiles =
        k / ((160934 : Rat) / 100000)) ∧
    (o.distance_km = none →
      (backendEntry nowIso idx o suffix ty svc).pub.distanceMiles = 0) ∧
    (∀ c, o.price_cents = some c →
      (backendEntry nowIso idx o suffix ty svc).pub.price = "$" ++ centsDisplay c) ∧
    (o.price_cents = none →
      (backendEntry nowIso idx o suffix ty svc).pub.price = jsStrOr o.price "") ∧
    (∀ c, o.confidence = some c → 0 ≤ c → c ≤ 1 →
      (backendEntry nowIso idx o suffix ty svc).trustScore = jsRound (c * 100)) ∧
    (o.confidence = none →
      (backendEntry nowIso idx o suffix ty svc).trustScore = jsRound 100) := by
  refine ⟨rfl, rfl, rfl, ?_, ?_, ?_, ?_, ?_, ?_⟩
  · intro k hk
    simp [backendEntry, backendDistanceMiles, hk]
  · intro hk
    simp [backendEntry, backendDistanceMiles, hk]
  · intro c hc
    simp [backendEntry, backendPriceStr, hc]
  · intro hc
    simp [backendEntry, backendPriceStr, hc]
  · intro c hc h0 h1
    show backendTrustScore o = jsRound (c * 100)
    rw [backendTrustScore, hc]
    exact clampScale c h0 h1
  · intro hc
    show backendTrustScore o = jsRound 100
    rw [backendTrustScore, hc]
    norm_num

/-- C6: each raw backend offer normalizes to at most two internal
entries — one with availabilityType `pickup` exactly when the raw offer's
pickup block is available and one with `delivery` exactly when its
delivery block is — each carrying `distanceMiles = distance_km / 1.60934`
(0 when `distance_km` is not numeric), `price` rendered as `$` plus two
decimals from integer cents (otherwise the raw display string passed
through, empty-string defaulted), `trustScore` the confidence linearly
scaled to [0,100] and rounded (confidence defaulting to 1 when missing),
and constant `inStock`, `isEligible`, `margin = 100`; and every response
`resolveViaBackend` returns carries exactly the offers of a second Guard
Filter pass over the normalized entries with the guard-only fields
(`margin`, `trustScore`, `isEligible`) projected away. -/
theorem C6_backend_normalization :
    (∀ (nowIso : String) (idx : Nat) (o : RawOffer),
      (mapBackendOffer nowIso idx o).length ≤ 2 ∧
      ((∃ e ∈ mapBackendOffer nowIso idx o, e.pub.availabilityType = "pickup") ↔
        pickupAvail o = true) ∧
      ((∃ e ∈ mapBackendOffer nowIso idx o, e.pub.availabilityType = "delivery") ↔
        deliveryAvail o = true) ∧
      (∀ e ∈ mapBackendOffer nowIso idx o,
        e.margin = 100 ∧ e.isEligible = true ∧ e.pub.inStock = true ∧
        (∀ k, o.distance_km = some k →
          e.pub.distanceMiles = k / ((160934 : Rat) / 100000)) ∧
        (o.distance_km = none → e.pub.distanceMiles = 0) ∧
        (∀ c, o.price_cents = some c → e.pub.price = "$" ++ centsDisplay c) ∧
        (o.price_cents = none → e.pub.price = jsStrOr o.price "") ∧
        (∀ c, o.confidence = some c → 0 ≤ c → c ≤ 1 →
          e.trustScore = jsRound (c * 100)) ∧
        (o.confidence = none → e.trustScore = jsRound 100))) ∧
    (∀ (r : ResolveRequest) (net1 net2 : String → FetchOutcome) (nowIso : String)
        (resp : ResolveResponse),
      resolveViaBackend r net1 net2 nowIso = some resp →
      ∃ raws : List RawOffer,
        resp.offers = prioritizeOffers
          ((applyGuardFilters MappedEntry.guardView
            (raws.enum.flatMap (fun p => mapBackendOffer nowIso p.1 p.2))).map
            MappedEntry.pub)) := by
  constructor
  · intro nowIso idx o
    refine ⟨?_, ?_, ?_, ?_⟩
    · rcases hpu : o.pickup with _ | svc <;> rcases hde : o.delivery with _ | svc2 <;>
        simp only [mapBackendOffer, hpu, hde]
      · simp
      · cases svc2.available <;> simp
      · cases svc.available <;> simp
      · cases svc.available <;> cases svc2.available <;> simp
    · constructor
      · rintro ⟨e, he, hty⟩
        rcases mem_mapBackendOffer he with ⟨svc, hpu, hav, rfl⟩ | ⟨svc, hde, hav, rfl⟩
        · rw [pickupAvail, hpu]
          exact hav
        · have hbad : ("delivery" : String) = "pickup" := hty
          exact absurd hbad (by decide)
      · intro hp
        rcases hpu : o.pickup with _ | svc
        · simp [pickupAvail, hpu] at hp
        · have hav : svc.available = true := by simpa [pickupAvail, hpu] using hp
          refine ⟨backendEntry nowIso idx o "-p" "pickup" svc, ?_, rfl⟩
          simp [mapBackendOffer, hpu, hav]
    · constructor
      · rintro ⟨e, he, hty⟩
        rcases mem_mapBackendOffer he with ⟨svc, hpu, hav, rfl⟩ | ⟨svc, hde, hav, rfl⟩
        · have hbad : ("pickup" : String) = "delivery" := hty
          exact absurd hbad (by decide)
        · rw [deliveryAvail, hde]
          exact hav
      · intro hp
        rcases hde : o.delivery with _ | svc
        · simp [deliveryAvail, hde] at hp
        · have hav : svc.available = true := by simpa [deliveryAvail, hde] using hp
          refine ⟨backendEntry nowIso idx o "-d" "delivery" svc, ?_, rfl⟩
          simp [mapBackendOffer, hde, hav]
    · intro e he
      rcases mem_mapBackendOffer he with ⟨svc, hpu, hav, rfl⟩ | ⟨svc, hde, hav, rfl⟩ <;>
        exact backendEntry_fields nowIso idx o _ _ svc
  · intro r net1 net2 nowIso resp h
    simp only [resolveViaBackend] at h
    by_cases hc : (candidateIds r).isEmpty
    · rw [if_pos hc] at h
      cases h
    · rw [if_neg hc] at h
      rcases hz : zipToLatLon r.zip with _ | loc
      · simp only [hz] at h
        cases h
      · simp only [hz] at h
        rcases ha : (match tryCandidates net1 (candidateIds r) with
          | Except.error e => Except.error e
          | Except.ok offers1 =>
            if offers1.isEmpty then tryCandidates net2 (candidateIds r)
            else Except.ok offers1) with e | bo
        · simp only [ha] at h
          cases h
        · simp only [ha] at h
          by_cases hbo : bo.isEmpty
          · rw [if_pos hbo] at h
            cases h
          · rw [if_neg hbo] at h
            by_cases hf : ((applyGuardFilters MappedEntry.guardView
                (bo.enum.flatMap (fun p => mapBackendOffer nowIso p.1 p.2))).map
                  MappedEntry.pub).isEmpty
            · rw [if_pos hf] at h
              cases h
            · rw [if_neg hf] at h
              refine ⟨bo, ?_⟩
              cases h
              rfl

def c6Raw : RawOffer :=
  { id := some "o1",
    store := some { name := some "Best Buy", retailer := some "bestbuy" },
    price_cents := some 1999,
    pickup := some { available := true, eta_min := some 30 },
    delivery := some { available := false, eta_min := none } }

/-- C6 witness: the theorem applied to a concrete raw backend offer with
only pickup available. -/
theorem C6_backend_normalization_witness :
    (mapBackendOffer "now" 0 c6Raw).length ≤ 2 ∧
      ((∃ e ∈ mapBackendOffer "now" 0 c6Raw, e.pub.availabilityType = "pickup") ↔
        pickupAvail c6Raw = true) ∧
      c6Raw.price_cents = some 1999 :=
  ⟨(C6_backend_normalization.1 "now" 0 c6Raw).1,
    (C6_backend_normalization.1 "now" 0 c6Raw).2.1, rfl⟩

/-- The candidate loop yields an exception or the empty list when every
answer it sees is a rejected fetch, a non-OK status, or an empty offers
array. -/
lemma tryCandidates_no_result (net : String → FetchOutcome) (pids : List String)
    (h : ∀ pid ∈ pids, net pid = FetchOutcome.err ∨ net pid = FetchOutcome.notOk ∨
      net pid = FetchOutcome.ok []) :
    tryCandidates net pids = Except.error () ∨ tryCandidates net pids = Except.ok [] := by
  induction pids with
  | nil => exact Or.inr rfl
  | cons p rest ih =>
    have hrest := ih (fun pid hm => h pid (List.mem_cons_of_mem p hm))
    rcases h p (List.mem_cons_self p rest) with hp | hp | hp
    · left
      simp [tryCandidates, hp]
    · simpa [tryCandidates, hp] using hrest
    · simpa [tryCandidates, hp] using hrest

/-- C7: the Backend Proxy Adapter fails soft, never surfacing an error.
It returns `none` (the model of `null`; every caught exception also ends
there by construction of the model) when the request carries no
gtin/upc/ean/asin identifier, when the ZIP is absent or not in the static
lookup table, and when every backend query errors, is non-OK or yields an
empty offers array; every response it does return is eligible with a
nonempty offer list (so a guard pass that removes all normalized offers
also ends in `none`); and the orchestrator answers a `null` backend
result on an empty local list with the ineligible payload rather than an
error. -/
theorem C7_backend_fails_soft :
    (∀ (r : ResolveRequest) (net1 net2 : String → FetchOutcome) (nowIso : String),
      objGet r.identifiers "gtin" = none → objGet r.identifiers "upc" = none →
      objGet r.identifiers "ean" = none → objGet r.identifiers "asin" = none →
      resolveViaBackend r net1 net2 nowIso = none) ∧
    (∀ (r : ResolveRequest) (net1 net2 : String → FetchOutcome) (nowIso : String),
      zipToLatLon r.zip = none → resolveViaBackend r net1 net2 nowIso = none) ∧
    (∀ (r : ResolveRequest) (net1 net2 : String → FetchOutcome) (nowIso : String),
      (∀ pid ∈ candidateIds r, net1 pid = FetchOutcome.err ∨
        net1 pid = FetchOutcome.notOk ∨ net1 pid = FetchOutcome.ok []) →
      (∀ pid ∈ candidateIds r, net2 pid = FetchOutcome.err ∨
        net2 pid = FetchOutcome.notOk ∨ net2 pid = FetchOutcome.ok []) →
      resolveViaBackend r net1 net2 nowIso = none) ∧
    (∀ (r : ResolveRequest) (net1 net2 : String → FetchOutcome) (nowIso : String)
        (resp : ResolveResponse),
      resolveViaBackend r net1 net2 nowIso = some resp →
      resp.eligible = true ∧ resp.offers ≠ []) ∧
    (∀ (req : ResolveRequest) (localOffers : List StoredOffer)
        (stores : List (String × Store)) (now : Int) (nowIso : String)
        (st : ResolverState),
      mapGet st.cache (generateCacheKey req) = none →
      applyGuardFilters StoredOffer.guardView localOffers = [] →
      (handleResolve req localOffers stores none now nowIso st).1 =
        { eligible := false, offers := [], cached := false, timestamp := nowIso }) := by
  refine ⟨?_, ?_, ?_, ?_, ?_⟩
  · intro r net1 net2 nowIso hg hu he2 ha
    have hcand : candidateIds r = [] := by
      simp [candidateIds, hg, hu, he2, ha, jsOrOpt, strTruthy]
    simp [resolveViaBackend, hcand]
  · intro r net1 net2 nowIso hz
    by_cases hc : (candidateIds r).isEmpty
    · simp [resolveViaBackend, hc]
    · simp [resolveViaBackend, hc, hz]
  · intro r net1 net2 nowIso h1 h2
    by_cases hc : (candidateIds r).isEmpty
    · simp [resolveViaBackend, hc]
    · rcases hz : zipToLatLon r.zip with _ | loc
      · simp [resolveViaBackend, hc, hz]
      · rcases tryCandidates_no_result net1 (candidateIds r) h1 with t1 | t1 <;>
          rcases tryCandidates_no_result net2 (candidateIds r) h2 with t2 | t2 <;>
          simp [resolveViaBackend, hc, hz, t1, t2]
  · intro r net1 net2 nowIso resp h
    simp only [resolveViaBackend] at h
    by_cases hc : (candidateIds r).isEmpty
    · rw [if_pos hc] at h
      cases h
    · rw [if_neg hc] at h
      rcases hz : zipToLatLon r.zip with _ | loc
      · simp only [hz] at h
        cases h
      · simp only [hz] at h
        rcases ha : (match tryCandidates net1 (candidateIds r) with
          | Except.error e => Except.error e
          | Except.ok offers1 =>
            if offers1.isEmpty then tryCandidates net2 (candidateIds r)
            else Except.ok offers1) with e | bo
        · simp only [ha] at h
          cases h
        · simp only [ha] at h
          by_cases hbo : bo.isEmpty
          · rw [if_pos hbo] at h
            cases h
          · rw [if_neg hbo] at h
            by_cases hf : ((applyGuardFilters MappedEntry.guardView
                (bo.enum.flatMap (fun p => mapBackendOffer nowIso p.1 p.2))).map
                  MappedEntry.pub).isEmpty
            · rw [if_pos hf] at h
              cases h
            · rw [if_neg hf] at h
              cases h
              refine ⟨rfl, ?_⟩
              intro hcontra
              have hlen : (prioritizeOffers ((applyGuardFilters MappedEntry.guardView
                  (bo.enum.flatMap (fun p => mapBackendOffer nowIso p.1 p.2))).map
                    MappedEntry.pub)).length =
                  ((applyGuardFilters MappedEntry.guardView
                  (bo.enum.flatMap (fun p => mapBackendOffer nowIso p.1 p.2))).map
                    MappedEntry.pub).length :=
                List.length_mergeSort _
              have hcontra2 : prioritizeOffers ((applyGuardFilters MappedEntry.guardView
                  (bo.enum.flatMap (fun p => mapBackendOffer nowIso p.1 p.2))).map
                    MappedEntry.pub) = [] := hcontra
              rw [hcontra2] at hlen
              simp only [List.length_nil] at hlen
              exact hf (List.isEmpty_iff.mpr (List.length_eq_zero.mp hlen.symm))
  · intro req localOffers stores now nowIso st hmiss hempty
    simp [handleResolve, hmiss, hempty]

def c7ReqNoId : ResolveRequest :=
  { identifiers := [("sku", "X1")], platform := "amazon", url := "u", zip := some "10001" }

/-- C7 witness: a request with no usable identifier yields `null` even
when the network would answer, and a request whose every backend query is
non-OK yields `null`. -/
theorem C7_backend_fails_soft_witness :
    resolveViaBackend c7ReqNoId (fun _ => FetchOutcome.ok [c6Raw])
        (fun _ => FetchOutcome.ok [c6Raw]) "t" = none ∧
      resolveViaBackend c2Req (fun _ => FetchOutcome.notOk)
        (fun _ => FetchOutcome.notOk) "t" = none :=
  ⟨C7_backend_fails_soft.1 c7ReqNoId _ _ "t" rfl rfl rfl rfl,
    C7_backend_fails_soft.2.2.1 c2Req _ _ "t"
      (fun _ _ => Or.inr (Or.inl rfl)) (fun _ _ => Or.inr (Or.inl rfl))⟩

end PriceSpy
